import Mathlib

/-!
Shallow embedding of the lumina-frame image session controller
(`src/App.tsx`) and its image provider (`src/services/geminiService.ts`).

The session controller owns the currently displayed image, the loading
flag, the in-flight guard (`isGeneratingRef`), the navigation history
list and its index.  JavaScript numbers used as indices and timestamps
are modelled as `Int`; pixel coordinates and brightness values are
modelled as `ℚ` (the decimal literals 0.35, 0.65, 0.6, 0.1, 2.0 of the
source are taken at their decimal value); image URLs are `String`s and
the nullable `currentImage` is an `Option String`.
-/

namespace LuminaFrame

/-- State of the image session controller in `App.tsx`:
`currentImage`, `loading`, `isGeneratingRef`, `imageHistory`,
`historyIndex`. -/
structure SessionState where
  currentImage : Option String
  loading : Bool
  isGenerating : Bool
  imageHistory : List String
  historyIndex : Int
  deriving Repr, DecidableEq

/-- Initial state of the controller: `useState` initialisers
`currentImage = null`, `loading = true`, `isGeneratingRef = false`,
`imageHistory = []`, `historyIndex = -1`. -/
def initialState : SessionState :=
  { currentImage := none
    loading := true
    isGenerating := false
    imageHistory := []
    historyIndex := -1 }

/-- JavaScript `list.slice(0, stop)` for an integer `stop`: a negative
`stop` counts from the end of the list, clamped at 0. -/
def sliceFromZero (l : List String) (stop : Int) : List String :=
  if stop < 0 then l.take ((l.length : Int) + stop).toNat else l.take stop.toNat

/-- Outcome of one `loadNewImage` attempt: the provider returned a URL
and the preload decoded (`img.onload`), the provider returned a URL but
decoding failed (`img.onerror`), or the provider returned `null`. -/
inductive LoadResult where
  | success (url : String)
  | decodeError (url : String)
  | providerNull
  deriving Repr, DecidableEq

/-- The synchronous head of `loadNewImage` (App.tsx lines 74-76): if a
load is already in flight it returns immediately, otherwise it sets the
in-flight guard and the loading flag.  The boolean result records
whether a provider request is issued. -/
def loadNewImageStart (s : SessionState) : SessionState × Bool :=
  if s.isGenerating then (s, false)
  else ({ s with isGenerating := true, loading := true }, true)

/-- The completion of `loadNewImage` (App.tsx lines 81-107).
`closureIdx` is the `historyIndex` value captured by the `useCallback`
closure when the call began; the `prev.slice(0, historyIndex + 1)`
truncation uses it, while `setHistoryIndex(prev => prev + 1)` uses the
index current at completion time.  JavaScript `if (prevImage)` is false
both for `null` and for the empty string. -/
def loadNewImageFinish (s : SessionState) (r : LoadResult) (closureIdx : Int) :
    SessionState :=
  match r with
  | .success url =>
    match s.currentImage with
    | some prevImage =>
      if prevImage = "" then
        { s with currentImage := some url, loading := false, isGenerating := false }
      else
        { s with
            imageHistory := sliceFromZero s.imageHistory (closureIdx + 1) ++ [prevImage]
            historyIndex := s.historyIndex + 1
            currentImage := some url
            loading := false
            isGenerating := false }
    | none =>
      { s with currentImage := some url, loading := false, isGenerating := false }
  | .decodeError _ => { s with loading := false, isGenerating := false }
  | .providerNull => { s with loading := false, isGenerating := false }

/-- One complete `loadNewImage` call, run to completion with no
interleaved operation: the guard/flag head followed by the completion
with outcome `r`.  The closure captures `s.historyIndex`. -/
def loadNewImage (s : SessionState) (r : LoadResult) : SessionState :=
  let started := loadNewImageStart s
  if started.2 then loadNewImageFinish started.1 r s.historyIndex else started.1

/-- `loadPreviousImage` (App.tsx lines 111-128): when
`historyIndex >= 0 && imageHistory.length > 0`, the current image is
set to `imageHistory[historyIndex]` (JavaScript indexing yields
`undefined` out of bounds, modelled by `List.get?`) and the index is
decremented; otherwise nothing happens. -/
def loadPreviousImage (s : SessionState) : SessionState :=
  if 0 ≤ s.historyIndex ∧ 0 < s.imageHistory.length then
    { s with
        currentImage := s.imageHistory.get? s.historyIndex.toNat
        historyIndex := s.historyIndex - 1 }
  else s

/-- A session operation: one `loadNewImage` call run to completion with
the given outcome, or one `loadPreviousImage` call. -/
inductive SessionOp where
  | loadNew (r : LoadResult)
  | loadPrev
  deriving Repr, DecidableEq

def applyOp (s : SessionState) (op : SessionOp) : SessionState :=
  match op with
  | .loadNew r => loadNewImage s r
  | .loadPrev => loadPreviousImage s

def runOps (s : SessionState) (ops : List SessionOp) : SessionState :=
  ops.foldl applyOp s

/-- The history-index invariant of the session controller. -/
def indexInv (s : SessionState) : Prop :=
  -1 ≤ s.historyIndex ∧ s.historyIndex ≤ (s.imageHistory.length : Int) - 1

instance (s : SessionState) : Decidable (indexInv s) := by
  unfold indexInv; infer_instance

/-! ### Asynchronous model of in-flight loads

`loadNewImage` above runs a call to completion atomically.  To reason
about overlapping calls, the asynchronous model keeps, next to the
session state, the list of provider requests issued and not yet
completed, each tagged with the `historyIndex` its closure captured. -/

structure AsyncState where
  sess : SessionState
  pending : List Int
  deriving Repr, DecidableEq

def asyncInit : AsyncState := ⟨initialState, []⟩

/-- One event of the asynchronous system: a `loadNewImage` invocation
(which issues a request only when the guard is clear), the completion
of the oldest pending request with some outcome, or a
`loadPreviousImage` call. -/
inductive AStep : AsyncState → AsyncState → Prop where
  | invoke (a : AsyncState) :
      AStep a
        ⟨(loadNewImageStart a.sess).1,
         if (loadNewImageStart a.sess).2 then a.sess.historyIndex :: a.pending
         else a.pending⟩
  | complete (a : AsyncState) (r : LoadResult) (idx : Int) (rest : List Int)
      (h : a.pending = idx :: rest) :
      AStep a ⟨loadNewImageFinish a.sess r idx, rest⟩
  | prevStep (a : AsyncState) :
      AStep a ⟨loadPreviousImage a.sess, a.pending⟩

inductive Reachable : AsyncState → Prop where
  | init : Reachable asyncInit
  | step {a b : AsyncState} : Reachable a → AStep a b → Reachable b

/-! ### Gesture recognition (`handleInteraction`, App.tsx lines 156-214) -/

inductive Side where
  | left
  | center
  | right
  deriving Repr, DecidableEq

/-- Tap-zone classification: `clientX < width * 0.35` is the left zone,
`clientX > width * 0.65` the right zone, anything else the center. -/
def classifySide (clientX width : ℚ) : Side :=
  if clientX < width * (35 / 100) then .left
  else if clientX > width * (65 / 100) then .right
  else .center

/-- Navigation triggered by a double tap: `next` invokes
`loadNewImage`, `prev` invokes `loadPreviousImage`. -/
inductive NavAction where
  | next
  | prev
  deriving Repr, DecidableEq

/-- Double-tap detection state: `lastTapTimeRef` (ms), `lastTapSideRef`
and whether a single-tap timer is pending (`singleTapTimerRef` is not
null). -/
structure TapState where
  lastTapTime : Int
  lastTapSide : Option Side
  singleTapPending : Bool
  deriving Repr, DecidableEq

/-- `handleInteraction`: a tap at time `currentTime` (ms) and
x-coordinate `clientX` with viewport width `width`.  When the elapsed
time since the last tap is in `(0, 300)` and the side matches the
recorded side and is not center, the pending single-tap timer is
cancelled and navigation fires (right ↦ `loadNewImage`,
left ↦ `loadPreviousImage`) and the tap record is reset; otherwise the
tap is recorded and a single-tap timer is (re)armed. -/
def handleInteraction (ts : TapState) (currentTime : Int) (clientX width : ℚ) :
    TapState × Option NavAction :=
  let side := classifySide clientX width
  let tapLength := currentTime - ts.lastTapTime
  if tapLength < 300 ∧ 0 < tapLength ∧ ts.lastTapSide = some side ∧ side ≠ .center then
    (⟨0, none, false⟩,
     if side = .right then some NavAction.next
     else if side = .left then some NavAction.prev
     else none)
  else
    (⟨currentTime, some side, true⟩, none)

/-! ### Brightness swipe (`handleTouchMove`, App.tsx lines 235-256) -/

/-- `handleTouchMove`: given the recorded touch start (or `none` when
no touch is active), the brightness recorded at touch start, the
current touch position, the viewport width and the current brightness,
returns the brightness after the move event.  A swipe adjusts
brightness only when it started in the right 40% of the screen
(`startX > width * 0.6`), moved more than the 10px deadzone vertically,
and is predominantly vertical; the new value is
`max 0.1 (min 2.0 (initial + deltaY / 300))` with `deltaY` positive
upwards. -/
def handleTouchMove (touchStart : Option (ℚ × ℚ)) (initialBrightness : ℚ)
    (touchX touchY width brightness : ℚ) : ℚ :=
  match touchStart with
  | none => brightness
  | some start =>
    let deltaY := start.2 - touchY
    let deltaX := touchX - start.1
    let isRightSide := start.1 > width * (6 / 10)
    if isRightSide ∧ |deltaY| > 10 ∧ |deltaY| > |deltaX| then
      let change := deltaY / 300
      max (1 / 10) (min 2 (initialBrightness + change))
    else brightness

/-! ### Image provider (`src/services/geminiService.ts`) -/

/-- The genre enum of `src/types.ts`. -/
inductive Genre where
  | Nature
  | Urban
  | Abstract
  | Space
  | Minimalism
  | Animals
  deriving Repr, DecidableEq

/-- The string value of each `Genre` enum member. -/
def genreValue : Genre → String
  | .Nature => "Nature"
  | .Urban => "Urban Architecture"
  | .Abstract => "Abstract Art"
  | .Space => "Deep Space"
  | .Minimalism => "Minimalism"
  | .Animals => "Wildlife"

/-- Characters matched by the JavaScript regex class `\s` (the ones
relevant to ASCII text plus the common Unicode spaces). -/
def isJsWhitespace (c : Char) : Bool :=
  c = ' ' || c = '\t' || c = '\n' || c = '\x0b' || c = '\x0c' || c = '\r' ||
  c = '\u00a0' || c = '\u2028' || c = '\u2029' || c = '\ufeff'

/-- `collapseWsAux l inRun` rewrites `l`, emitting one `'-'` for each
maximal run of whitespace characters; `inRun` records whether the
previous character belonged to a whitespace run already replaced. -/
def collapseWsAux : List Char → Bool → List Char
  | [], _ => []
  | c :: rest, inRun =>
    if isJsWhitespace c then
      (if inRun then [] else ['-']) ++ collapseWsAux rest true
    else
      c :: collapseWsAux rest false

/-- `str.replace(/\s+/g, '-')`: every maximal whitespace run becomes a
single hyphen. -/
def genreSlug (s : String) : String :=
  ⟨collapseWsAux s.data false⟩

/-- `generateArtImage` (geminiService.ts lines 7-29).  The call
`Math.floor(Math.random() * 100000)` is modelled by the parameter
`randomDraw : Fin 100000`.  The `try` block builds the Picsum URL by
string concatenation; none of its operations can throw, so the `catch`
branch returning `null` is never taken. -/
def generateArtImage (genre : Genre) (randomDraw : Fin 100000) : Option String :=
  let cacheBuster := randomDraw.val
  let seed := genreSlug (genreValue genre) ++ "-" ++ toString cacheBuster
  let width : Nat := 1920
  let height : Nat := 1080
  let imageUrl :=
    "https://picsum.photos/seed/" ++ seed ++ "/" ++ toString width ++ "/" ++
      toString height
  some imageUrl

/-- The `LoadResult` a completed `loadNewImage` call observes when the
provider is `generateArtImage` and the preload decode succeeds or
fails. -/
def resultOfProvider (g : Genre) (n : Fin 100000) (decodeOk : Bool) : LoadResult :=
  match generateArtImage g n with
  | some url => if decodeOk then .success url else .decodeError url
  | none => .providerNull

/-- The URL payload produced by the provider. -/
def providerUrl (g : Genre) (n : Fin 100000) : String :=
  (generateArtImage g n).getD ""

/-- A run of `loadNewImage` calls that all succeed with the given URLs. -/
def successOps (urls : List String) : List SessionOp :=
  urls.map fun u => SessionOp.loadNew (.success u)

/-! ### Characterisation lemmas for the session operations -/

lemma loadNewImage_busy {s : SessionState} (r : LoadResult)
    (hg : s.isGenerating = true) : loadNewImage s r = s := by
  simp [loadNewImage, loadNewImageStart, hg]

lemma loadNewImage_providerNull {s : SessionState} (hg : s.isGenerating = false) :
    loadNewImage s .providerNull = { s with loading := false, isGenerating := false } := by
  simp [loadNewImage, loadNewImageStart, loadNewImageFinish, hg]

lemma loadNewImage_decodeError {s : SessionState} (url : String)
    (hg : s.isGenerating = false) :
    loadNewImage s (.decodeError url) =
      { s with loading := false, isGenerating := false } := by
  simp [loadNewImage, loadNewImageStart, loadNewImageFinish, hg]

lemma loadNewImage_success_none {s : SessionState} (url : String)
    (hg : s.isGenerating = false) (hc : s.currentImage = none) :
    loadNewImage s (.success url) =
      { s with currentImage := some url, loading := false, isGenerating := false } := by
  simp [loadNewImage, loadNewImageStart, loadNewImageFinish, hg, hc]

lemma loadNewImage_success_empty {s : SessionState} (url : String)
    (hg : s.isGenerating = false) (hc : s.currentImage = some "") :
    loadNewImage s (.success url) =
      { s with currentImage := some url, loading := false, isGenerating := false } := by
  simp [loadNewImage, loadNewImageStart, loadNewImageFinish, hg, hc]

lemma loadNewImage_success_some {s : SessionState} (url prev : String)
    (hg : s.isGenerating = false) (hc : s.currentImage = some prev) (hne : prev ≠ "") :
    loadNewImage s (.success url) =
      { s with
          imageHistory := sliceFromZero s.imageHistory (s.historyIndex + 1) ++ [prev]
          historyIndex := s.historyIndex + 1
          currentImage := some url
          loading := false
          isGenerating := false } := by
  simp [loadNewImage, loadNewImageStart, loadNewImageFinish, hg, hc, hne]

lemma loadPreviousImage_noop {s : SessionState}
    (h : ¬(0 ≤ s.historyIndex ∧ 0 < s.imageHistory.length)) :
    loadPreviousImage s = s := by
  simp [loadPreviousImage, h]

lemma loadPreviousImage_go {s : SessionState}
    (h0 : 0 ≤ s.historyIndex) (hl : 0 < s.imageHistory.length) :
    loadPreviousImage s =
      { s with
          currentImage := s.imageHistory.get? s.historyIndex.toNat
          historyIndex := s.historyIndex - 1 } := by
  simp [loadPreviousImage, h0, hl]

lemma loadPreviousImage_isGenerating (s : SessionState) :
    (loadPreviousImage s).isGenerating = s.isGenerating := by
  unfold loadPreviousImage; split <;> rfl

lemma loadNewImageFinish_isGenerating (s : SessionState) (r : LoadResult)
    (idx : Int) : (loadNewImageFinish s r idx).isGenerating = false := by
  unfold loadNewImageFinish
  rcases r with url | url | _
  · rcases hc : s.currentImage with _ | prev
    · rfl
    · simp only []
      split <;> rfl
  · rfl
  · rfl

/-! ### The history-index invariant is inductive -/

lemma indexInv_initial : indexInv initialState := by
  constructor <;> simp [initialState]

lemma indexInv_loadNewImage {s : SessionState} (r : LoadResult)
    (h : indexInv s) : indexInv (loadNewImage s r) := by
  obtain ⟨h1, h2⟩ := h
  by_cases hg : s.isGenerating
  · rw [loadNewImage_busy r hg]; exact ⟨h1, h2⟩
  · rw [Bool.not_eq_true] at hg
    rcases r with url | url | _
    · rcases hc : s.currentImage with _ | prev
      · rw [loadNewImage_success_none url hg hc]; exact ⟨h1, h2⟩
      · by_cases hne : prev = ""
        · subst hne
          rw [loadNewImage_success_empty url hg hc]; exact ⟨h1, h2⟩
        · rw [loadNewImage_success_some url prev hg hc hne]
          unfold indexInv
          dsimp only
          refine ⟨by omega, ?_⟩
          simp only [List.length_append, List.length_singleton, sliceFromZero]
          rw [if_neg (by omega), List.length_take]
          push_cast
          omega
    · rw [loadNewImage_decodeError url hg]; exact ⟨h1, h2⟩
    · rw [loadNewImage_providerNull hg]; exact ⟨h1, h2⟩

lemma indexInv_loadPreviousImage {s : SessionState} (h : indexInv s) :
    indexInv (loadPreviousImage s) := by
  obtain ⟨h1, h2⟩ := h
  by_cases hc : 0 ≤ s.historyIndex ∧ 0 < s.imageHistory.length
  · rw [loadPreviousImage_go hc.1 hc.2]
    unfold indexInv
    dsimp only
    exact ⟨by omega, by omega⟩
  · rw [loadPreviousImage_noop hc]; exact ⟨h1, h2⟩

lemma indexInv_applyOp {s : SessionState} (op : SessionOp) (h : indexInv s) :
    indexInv (applyOp s op) := by
  cases op with
  | loadNew r => exact indexInv_loadNewImage r h
  | loadPrev => exact indexInv_loadPreviousImage h

lemma indexInv_runOps {s : SessionState} (ops : List SessionOp) (h : indexInv s) :
    indexInv (runOps s ops) := by
  induction ops generalizing s with
  | nil => exact h
  | cons op rest ih => exact ih (indexInv_applyOp op h)

/-! ### A run of consecutive successful loads -/

lemma runOps_append (s : SessionState) (ops1 ops2 : List SessionOp) :
    runOps s (ops1 ++ ops2) = runOps (runOps s ops1) ops2 :=
  List.foldl_append ..

/-- Closed form of a non-empty run of successful loads from the initial
state, provided no loaded URL is the empty string: the last URL is
displayed, all earlier URLs sit in the history in order, and the index
points at the last history entry. -/
lemma runOps_successOps (urls : List String) (hne : urls ≠ [])
    (hall : ∀ u ∈ urls, u ≠ "") :
    runOps initialState (successOps urls) =
      { currentImage := urls.getLast?
        loading := false
        isGenerating := false
        imageHistory := urls.dropLast
        historyIndex := (urls.length : Int) - 2 } := by
  induction urls using List.reverseRecOn with
  | nil => exact absurd rfl hne
  | append_singleton us u ih =>
    have hmap : successOps (us ++ [u]) =
        successOps us ++ [SessionOp.loadNew (.success u)] := by
      simp [successOps]
    rw [hmap, runOps_append]
    rcases us with _ | ⟨v, vs⟩
    · simp only [runOps, successOps, List.map_nil, List.foldl_nil, applyOp,
        List.foldl_cons]
      rw [loadNewImage_success_none u rfl rfl]
      simp [initialState]
    · set ws := v :: vs with hws
      have hwne : ws ≠ [] := by simp [hws]
      have ihw := ih hwne (fun x hx => hall x (List.mem_append_left _ hx))
      have hrun : runOps (runOps initialState (successOps ws))
          [SessionOp.loadNew (.success u)] =
          applyOp (runOps initialState (successOps ws)) (.loadNew (.success u)) := by
        simp [runOps]
      rw [hrun, ihw, applyOp]
      have hlast : ws.getLast? = some (ws.getLast hwne) :=
        List.getLast?_eq_getLast_of_ne_nil hwne
      have hlmem : ws.getLast hwne ∈ ws := List.getLast_mem hwne
      have hlne : ws.getLast hwne ≠ "" := hall _ (by simp [hlmem])
      rw [loadNewImage_success_some u (ws.getLast hwne) rfl (by rw [hlast]) hlne]
      have hlen : 1 ≤ ws.length := by
        rcases ws with _ | _
        · exact absurd rfl hwne
        · simp
      have hslice : sliceFromZero ws.dropLast ((ws.length : Int) - 2 + 1) =
          ws.dropLast := by
        unfold sliceFromZero
        rw [if_neg (by omega)]
        have hdl : ws.dropLast.length = ws.length - 1 := List.length_dropLast ws
        have : ((ws.length : Int) - 2 + 1).toNat = ws.length - 1 := by omega
        rw [this, ← hdl, List.take_length]
      simp only [hslice]
      rw [List.dropLast_append_getLast hwne]
      have hgl : (ws ++ [u]).getLast? = some u := List.getLast?_concat ws
      have hdl2 : (ws ++ [u]).dropLast = ws := List.dropLast_concat ..
      rw [hgl, hdl2]
      have hlen2 : ((ws ++ [u]).length : Int) - 2 = (ws.length : Int) - 2 + 1 := by
        simp only [List.length_append, List.length_singleton]
        push_cast
        omega
      rw [hlen2]

/-! ### In-flight request counting -/

/-- One asynchronous step preserves the correspondence between the
number of outstanding requests and the guard flag. -/
lemma pending_length_step {x y : AsyncState} (hs : AStep x y)
    (hx : x.pending.length = if x.sess.isGenerating then 1 else 0) :
    y.pending.length = if y.sess.isGenerating then 1 else 0 := by
  cases hs with
  | invoke =>
    by_cases hg : x.sess.isGenerating
    · simpa [loadNewImageStart, hg] using hx
    · have hz : x.pending.length = 0 := by simpa [hg] using hx
      simp [loadNewImageStart, hg, hz]
  | complete r idx rest hpend =>
    have hflag : (loadNewImageFinish x.sess r idx).isGenerating = false :=
      loadNewImageFinish_isGenerating ..
    rw [hpend] at hx
    by_cases hg : x.sess.isGenerating
    · simp only [hg, if_true, List.length_cons] at hx
      simp [hflag]
      exact List.length_eq_zero.mp (by omega)
    · simp [hg] at hx
  | prevStep =>
    simpa [loadPreviousImage_isGenerating] using hx

/-- In every reachable state of the asynchronous model, the number of
outstanding provider requests is 1 exactly when the guard flag is set,
and 0 otherwise. -/
lemma pending_length_eq_flag {a : AsyncState} (h : Reachable a) :
    a.pending.length = if a.sess.isGenerating then 1 else 0 := by
  induction h with
  | init => simp [asyncInit, initialState]
  | step hr hs ih => exact pending_length_step hs ih

/-! ### The provider URL is never empty -/

lemma providerUrl_ne_empty (g : Genre) (n : Fin 100000) : providerUrl g n ≠ "" := by
  unfold providerUrl generateArtImage
  intro h
  simp only [Option.getD_some] at h
  have hc := congrArg String.length h
  simp only [String.length_append] at hc
  have hz : ("" : String).length = 0 := rfl
  have hh : ("https://picsum.photos/seed/" : String).length = 27 := rfl
  rw [hz, hh] at hc
  omega

/-! ## The claims -/

/-- C1: for every sequence of session operations (successful or failed
`loadNewImage` calls and `loadPreviousImage` calls) starting from the
initial state (empty history, `historyIndex = -1`), the invariant
`-1 ≤ historyIndex ≤ history.length - 1` holds after each operation. -/
theorem c1_historyIndex_in_range (ops : List SessionOp) :
    -1 ≤ (runOps initialState ops).historyIndex ∧
    (runOps initialState ops).historyIndex ≤
      ((runOps initialState ops).imageHistory.length : Int) - 1 :=
  indexInv_runOps ops indexInv_initial

/-- C2 counterexample: from the reachable state with history `["A"]`,
index 0 and current image `"B"` (non-empty history, index ≥ 0, an image
displayed), running `loadPreviousImage` and then a successful
`loadNewImage` loses `"B"` entirely: it is neither the current image
nor anywhere in the history.  `loadPreviousImage` drops the displayed
image without pushing it anywhere (there is no forward stack). -/
theorem c2_counterexample :
    (runOps initialState
        [.loadNew (.success "A"), .loadNew (.success "B")]).currentImage = some "B" ∧
    (0 : Int) ≤ (runOps initialState
        [.loadNew (.success "A"), .loadNew (.success "B")]).historyIndex ∧
    (runOps initialState
        [.loadNew (.success "A"), .loadNew (.success "B")]).imageHistory ≠ [] ∧
    (runOps initialState
        [.loadNew (.success "A"), .loadNew (.success "B"),
         .loadPrev, .loadNew (.success "C")]).currentImage ≠ some "B" ∧
    "B" ∉ (runOps initialState
        [.loadNew (.success "A"), .loadNew (.success "B"),
         .loadPrev, .loadNew (.success "C")]).imageHistory := by
  decide

/-- C2 as amended: after `loadPreviousImage` followed by a successful
`loadNewImage`, the image that `loadPreviousImage` restored (namely
`history[historyIndex]`) is still present in the history, and the new
URL is displayed; the image that was displayed before the
`loadPreviousImage` call is discarded (there is no forward stack). -/
theorem c2_restored_image_kept (s : SessionState) (url : String)
    (hg : s.isGenerating = false) (h0 : 0 ≤ s.historyIndex)
    (hub : s.historyIndex < (s.imageHistory.length : Int)) :
    (loadNewImage (loadPreviousImage s) (.success url)).currentImage = some url ∧
    ∀ x, s.imageHistory.get? s.historyIndex.toNat = some x →
      x ∈ (loadNewImage (loadPreviousImage s) (.success url)).imageHistory := by
  have hl : 0 < s.imageHistory.length := by omega
  have hbound : s.historyIndex.toNat < s.imageHistory.length := by omega
  rw [loadPreviousImage_go h0 hl]
  obtain ⟨x, hxe⟩ : ∃ x, s.imageHistory.get? s.historyIndex.toNat = some x := by
    rw [List.get?_eq_get hbound]; exact ⟨_, rfl⟩
  by_cases hxe2 : x = ""
  · subst hxe2
    rw [loadNewImage_success_empty
      (s := ⟨s.imageHistory.get? s.historyIndex.toNat, s.loading, s.isGenerating, s.imageHistory, s.historyIndex - 1⟩)
      url hg hxe]
    refine ⟨rfl, fun y hy => ?_⟩
    have hyx : y = "" := by rw [hy] at hxe; exact Option.some.inj hxe
    subst hyx
    exact List.get?_mem hy
  · rw [loadNewImage_success_some
      (s := ⟨s.imageHistory.get? s.historyIndex.toNat, s.loading, s.isGenerating, s.imageHistory, s.historyIndex - 1⟩)
      url x hg hxe hxe2]
    refine ⟨rfl, fun y hy => ?_⟩
    have hyx : y = x := by rw [hy] at hxe; exact Option.some.inj hxe
    subst hyx
    exact List.mem_append_right _ (List.mem_singleton.mpr rfl)

theorem c2_restored_image_kept_witness :
    (loadNewImage (loadPreviousImage ⟨some "B", false, false, ["A"], 0⟩)
        (.success "C")).currentImage = some "C" ∧
    "A" ∈ (loadNewImage (loadPreviousImage ⟨some "B", false, false, ["A"], 0⟩)
        (.success "C")).imageHistory :=
  ⟨(c2_restored_image_kept ⟨some "B", false, false, ["A"], 0⟩ "C" rfl
      (by decide) (by decide)).1,
   (c2_restored_image_kept ⟨some "B", false, false, ["A"], 0⟩ "C" rfl
      (by decide) (by decide)).2 "A" (by decide)⟩

/-- C3: after `N ≥ 1` consecutive successful `loadNewImage` calls from
the initial empty session (each load fetching its URL from the
provider), `history.length = N - 1` (the first load has no predecessor
to archive) and `historyIndex = N - 2`. -/
theorem c3_history_after_success_run (loads : List (Genre × Fin 100000))
    (h : loads ≠ []) :
    (runOps initialState
        (successOps (loads.map fun p => providerUrl p.1 p.2))).imageHistory.length
      = loads.length - 1 ∧
    (runOps initialState
        (successOps (loads.map fun p => providerUrl p.1 p.2))).historyIndex
      = (loads.length : Int) - 2 := by
  have hne : loads.map (fun p => providerUrl p.1 p.2) ≠ [] := by
    simpa using h
  have hall : ∀ u ∈ loads.map (fun p => providerUrl p.1 p.2), u ≠ "" := by
    intro u hu
    rw [List.mem_map] at hu
    obtain ⟨p, _, rfl⟩ := hu
    exact providerUrl_ne_empty p.1 p.2
  rw [runOps_successOps _ hne hall]
  refine ⟨?_, ?_⟩
  · simp [List.length_dropLast]
  · simp

theorem c3_history_after_success_run_witness :
    (runOps initialState
        (successOps (([(Genre.Nature, (0 : Fin 100000)),
            (Genre.Space, (1 : Fin 100000))]).map
          fun p => providerUrl p.1 p.2))).imageHistory.length = 1 ∧
    (runOps initialState
        (successOps (([(Genre.Nature, (0 : Fin 100000)),
            (Genre.Space, (1 : Fin 100000))]).map
          fun p => providerUrl p.1 p.2))).historyIndex = 0 :=
  c3_history_after_success_run
    [(Genre.Nature, 0), (Genre.Space, 1)] (by decide)

/-- C4: `loadPreviousImage` is a no-op when the history is empty or
`historyIndex` is -1; otherwise (given that `historyIndex ≥ -1`, part
of the controller invariant) it sets the current image to
`history[historyIndex]` and decrements the index by one, leaving the
history, the loading flag and the in-flight guard untouched. -/
theorem c4_loadPreviousImage_spec (s : SessionState) (hlb : -1 ≤ s.historyIndex) :
    ((s.imageHistory = [] ∨ s.historyIndex = -1) → loadPreviousImage s = s) ∧
    (s.imageHistory ≠ [] → s.historyIndex ≠ -1 →
      (loadPreviousImage s).currentImage =
          s.imageHistory.get? s.historyIndex.toNat ∧
      (loadPreviousImage s).historyIndex = s.historyIndex - 1 ∧
      (loadPreviousImage s).imageHistory = s.imageHistory ∧
      (loadPreviousImage s).loading = s.loading ∧
      (loadPreviousImage s).isGenerating = s.isGenerating) := by
  constructor
  · rintro (he | hi)
    · exact loadPreviousImage_noop (by rw [he]; simp)
    · exact loadPreviousImage_noop (by rw [hi]; simp)
  · intro hne hni
    have h0 : 0 ≤ s.historyIndex := by omega
    have hl : 0 < s.imageHistory.length := List.length_pos.mpr hne
    rw [loadPreviousImage_go h0 hl]
    exact ⟨rfl, rfl, rfl, rfl, rfl⟩

theorem c4_loadPreviousImage_spec_witness :
    loadPreviousImage ⟨some "B", false, false, ["A"], -1⟩ =
      ⟨some "B", false, false, ["A"], -1⟩ ∧
    (loadPreviousImage ⟨some "B", false, false, ["A"], 0⟩).currentImage = some "A" ∧
    (loadPreviousImage ⟨some "B", false, false, ["A"], 0⟩).historyIndex = -1 :=
  ⟨(c4_loadPreviousImage_spec ⟨some "B", false, false, ["A"], -1⟩ (by decide)).1
      (Or.inr rfl),
   ((c4_loadPreviousImage_spec ⟨some "B", false, false, ["A"], 0⟩ (by decide)).2
      (by decide) (by decide)).1.trans (by decide),
   ((c4_loadPreviousImage_spec ⟨some "B", false, false, ["A"], 0⟩ (by decide)).2
      (by decide) (by decide)).2.1⟩

/-- C5: at most one image load is in flight at a time.  Invoking
`loadNewImage` while a load is in flight (the guard flag set) leaves
the whole session state unchanged and issues no provider request; and
in every reachable state of the asynchronous model the number of
outstanding provider requests is at most one. -/
theorem c5_single_flight :
    (∀ (s : SessionState) (r : LoadResult), s.isGenerating = true →
      loadNewImage s r = s ∧ loadNewImageStart s = (s, false)) ∧
    (∀ a : AsyncState, Reachable a → a.pending.length ≤ 1) := by
  constructor
  · intro s r hg
    exact ⟨loadNewImage_busy r hg, by simp [loadNewImageStart, hg]⟩
  · intro a h
    rw [pending_length_eq_flag h]
    split <;> omega

theorem c5_single_flight_witness :
    loadNewImage ⟨some "A", true, true, [], 0⟩ .providerNull =
      ⟨some "A", true, true, [], 0⟩ ∧
    asyncInit.pending.length ≤ 1 :=
  ⟨(c5_single_flight.1 ⟨some "A", true, true, [], 0⟩ .providerNull rfl).1,
   c5_single_flight.2 asyncInit Reachable.init⟩

/-- C6: when a `loadNewImage` call that actually started fails — the
provider returned `null` or the image decode failed — the loading flag
is cleared, the in-flight guard is released, and the current image,
history list and `historyIndex` are all left exactly as before. -/
theorem c6_failure_atomic (s : SessionState) (r : LoadResult)
    (hg : s.isGenerating = false)
    (hfail : r = .providerNull ∨ ∃ url, r = .decodeError url) :
    (loadNewImage s r).loading = false ∧
    (loadNewImage s r).isGenerating = false ∧
    (loadNewImage s r).currentImage = s.currentImage ∧
    (loadNewImage s r).imageHistory = s.imageHistory ∧
    (loadNewImage s r).historyIndex = s.historyIndex := by
  rcases hfail with rfl | ⟨url, rfl⟩
  · rw [loadNewImage_providerNull hg]
    exact ⟨rfl, rfl, rfl, rfl, rfl⟩
  · rw [loadNewImage_decodeError url hg]
    exact ⟨rfl, rfl, rfl, rfl, rfl⟩

theorem c6_failure_atomic_witness :
    (loadNewImage ⟨some "A", true, false, ["B"], 0⟩ .providerNull).loading = false ∧
    (loadNewImage ⟨some "A", true, false, ["B"], 0⟩ .providerNull).isGenerating
      = false ∧
    (loadNewImage ⟨some "A", true, false, ["B"], 0⟩ .providerNull).currentImage
      = some "A" ∧
    (loadNewImage ⟨some "A", true, false, ["B"], 0⟩ .providerNull).imageHistory
      = ["B"] ∧
    (loadNewImage ⟨some "A", true, false, ["B"], 0⟩ .providerNull).historyIndex
      = 0 :=
  c6_failure_atomic ⟨some "A", true, false, ["B"], 0⟩ .providerNull rfl (Or.inl rfl)

/-- C7 counterexample: the double-tap window is strictly positive.  Two
taps in the same right zone recorded with the same millisecond
timestamp (elapsed time 0 ms, hence within 300 ms of each other) are
not classified as a double tap: no navigation fires and the single-tap
timer stays armed, contradicting the claim as stated. -/
theorem c7_counterexample :
    (handleInteraction ⟨0, none, false⟩ 1000 700 1000 =
      (⟨1000, some Side.right, true⟩, none)) ∧
    (handleInteraction ⟨1000, some Side.right, true⟩ 1000 700 1000).2 = none ∧
    (handleInteraction ⟨1000, some Side.right, true⟩ 1000 700 1000).1.singleTapPending
      = true := by
  refine ⟨?_, ?_, ?_⟩ <;>
    · simp only [handleInteraction, classifySide]
      norm_num

/-- C7 as amended: a second tap in the same screen zone strictly
between 0 and 300 ms after the first is a double tap: it cancels the
pending single-tap action and triggers `loadNewImage` when the zone is
the right zone (`x > 65%` of the viewport width) and
`loadPreviousImage` when it is the left zone (`x < 35%`); two taps
within the window on different zones are not a double tap: no
navigation fires and the single-tap timer is re-armed. -/
theorem c7_double_tap (ts0 : TapState) (t1 t2 : Int) (x1 x2 w : ℚ)
    (ts1 : TapState) (h1 : handleInteraction ts0 t1 x1 w = (ts1, none))
    (hpos : 0 < t2 - t1) (hlt : t2 - t1 < 300) :
    (classifySide x2 w = classifySide x1 w → classifySide x1 w ≠ Side.center →
      (handleInteraction ts1 t2 x2 w).1.singleTapPending = false ∧
      (handleInteraction ts1 t2 x2 w).2 =
        some (if classifySide x1 w = Side.right then NavAction.next
          else NavAction.prev)) ∧
    (classifySide x2 w ≠ classifySide x1 w →
      (handleInteraction ts1 t2 x2 w).2 = none ∧
      (handleInteraction ts1 t2 x2 w).1.singleTapPending = true) := by
  have hts1 : ts1 = ⟨t1, some (classifySide x1 w), true⟩ := by
    by_cases hcond : (t1 - ts0.lastTapTime < 300 ∧ 0 < t1 - ts0.lastTapTime ∧
        ts0.lastTapSide = some (classifySide x1 w) ∧ classifySide x1 w ≠ Side.center)
    · exfalso
      rw [handleInteraction] at h1
      simp only [if_pos hcond] at h1
      have h2 := congrArg Prod.snd h1
      dsimp only at h2
      rcases hside : classifySide x1 w with _ | _ | _ <;> rw [hside] at h2 <;>
        simp at h2
      exact hcond.2.2.2 hside
    · rw [handleInteraction] at h1
      simp only [if_neg hcond] at h1
      exact (congrArg Prod.fst h1).symm
  subst hts1
  constructor
  · intro hsame hnc
    rw [handleInteraction]
    rw [if_pos ⟨by dsimp only; omega, by dsimp only; omega, by rw [hsame],
      hsame ▸ hnc⟩]
    refine ⟨rfl, ?_⟩
    rcases hside : classifySide x1 w with _ | _ | _
    · rw [hsame, hside]
      simp
    · exact absurd hside hnc
    · rw [hsame, hside]
      simp
  · intro hdiff
    rw [handleInteraction]
    rw [if_neg (by
      rintro ⟨-, -, hside, -⟩
      dsimp only at hside
      exact hdiff (Option.some.inj hside).symm)]
    exact ⟨rfl, rfl⟩

theorem c7_double_tap_witness :
    (handleInteraction ⟨1000, some Side.right, true⟩ 1100 700 1000).1.singleTapPending
      = false ∧
    (handleInteraction ⟨1000, some Side.right, true⟩ 1100 700 1000).2 =
      some NavAction.next := by
  have hright : classifySide 700 1000 = Side.right := by
    rw [classifySide]
    norm_num
  have h := c7_double_tap ⟨0, none, false⟩ 1000 1100 700 700 1000
    ⟨1000, some Side.right, true⟩
    (by rw [handleInteraction]
        rw [if_neg (by rintro ⟨-, -, h, -⟩; simp at h)]
        rw [hright])
    (by norm_num) (by norm_num)
  have h2 := h.1 rfl (by rw [hright]; exact fun hc => Side.noConfusion hc)
  exact ⟨h2.1, h2.2.trans (by rw [hright]; simp)⟩

/-- C8: a touch sequence starting at `startX > 0.6 * width` whose
vertical displacement exceeds the 10px deadzone and dominates the
horizontal displacement sets the brightness to
`max 0.1 (min 2.0 (initial + deltaY / 300))`; an upward swipe of 150px
from brightness 1.0 yields 1.5; touch sequences starting outside the
right 40% of the screen, or predominantly horizontal ones, leave the
brightness unchanged. -/
theorem c8_brightness_swipe :
    (∀ sx sy tx ty w b0 b : ℚ,
      sx > w * (6 / 10) → |sy - ty| > 10 → |sy - ty| > |tx - sx| →
      handleTouchMove (some (sx, sy)) b0 tx ty w b =
        max (1 / 10) (min 2 (b0 + (sy - ty) / 300))) ∧
    (∀ sx sy tx ty w b0 b : ℚ, ¬ sx > w * (6 / 10) →
      handleTouchMove (some (sx, sy)) b0 tx ty w b = b) ∧
    (∀ sx sy tx ty w b0 b : ℚ, ¬ |sy - ty| > |tx - sx| →
      handleTouchMove (some (sx, sy)) b0 tx ty w b = b) ∧
    handleTouchMove (some (700, 500)) 1 700 350 1000 1 = 3 / 2 := by
  refine ⟨?_, ?_, ?_, ?_⟩
  · intro sx sy tx ty w b0 b h1 h2 h3
    rw [handleTouchMove]
    rw [if_pos ⟨h1, h2, h3⟩]
  · intro sx sy tx ty w b0 b h1
    rw [handleTouchMove]
    rw [if_neg (by rintro ⟨hr, -, -⟩; exact h1 hr)]
  · intro sx sy tx ty w b0 b h3
    rw [handleTouchMove]
    rw [if_neg (by rintro ⟨-, -, hd⟩; exact h3 hd)]
  · rw [handleTouchMove]
    rw [if_pos (by norm_num)]
    norm_num

theorem c8_brightness_swipe_witness :
    handleTouchMove (some (700, 500)) 1 700 350 1000 1 =
      max (1 / 10) (min 2 (1 + (500 - 350) / 300)) ∧
    handleTouchMove (some (100, 500)) 1 100 350 1000 1 = 1 :=
  ⟨c8_brightness_swipe.1 700 500 700 350 1000 1 1 (by norm_num) (by norm_num)
      (by norm_num),
   c8_brightness_swipe.2.1 100 500 100 350 1000 1 1 (by norm_num)⟩

/-- C9: for every genre, `generateArtImage` never throws: it returns a
(non-null) URL of the form
`https://picsum.photos/seed/<slug>-<n>/1920/1080`, where `<slug>` is
the genre name with each whitespace run replaced by a hyphen and `<n>`
is the pseudo-random natural number below 100000, with width 1920 and
height 1080 fixed. -/
theorem c9_provider_url_shape (g : Genre) (n : Fin 100000) :
    (generateArtImage g n).isSome = true ∧
    ∃ num : Nat, num < 100000 ∧
      generateArtImage g n =
        some ("https://picsum.photos/seed/" ++ genreSlug (genreValue g) ++ "-" ++
          toString num ++ "/1920/1080") := by
  refine ⟨rfl, n.val, n.isLt, ?_⟩
  rw [generateArtImage]
  congr 1
  simp only [String.append_assoc]
  rfl

/-- C10: `generateArtImage` in fact never returns `null` for any genre
and any random draw: every operation in its `try` block is total, so
the `catch` branch is unreachable, and the `LoadResult` a completed
load observes from this provider is never `providerNull` — the
null-handling branch in `loadNewImage` is dead code when the provider
is `generateArtImage`. -/
theorem c10_provider_never_null (g : Genre) (n : Fin 100000) :
    generateArtImage g n ≠ none ∧
    ∀ decodeOk : Bool, resultOfProvider g n decodeOk ≠ LoadResult.providerNull := by
  constructor
  · rw [generateArtImage]
    exact fun h => Option.noConfusion h
  · intro decodeOk
    rw [resultOfProvider]
    rcases decodeOk with _ | _ <;> simp [generateArtImage]

end LuminaFrame
